import Mathlib

/-!
Shallow embedding of the identification core of src/backend/server.js
(vot-web: voter registration and face-based authentication server).

The embedding models the four HTTP handlers that own the template
population and the audit trail:
  POST /api/register          (server.js lines 87-150)
  POST /api/authenticate      (server.js lines 153-235)
  GET  /api/dashboard/stats   (server.js lines 238-280)
  GET  /api/dashboard/logs    (server.js lines 283-307)

External calls (the face-service via axios, the Firebase writes) are
modelled by explicit outcome parameters: an axios call either throws
(with or without code ECONNREFUSED) or resolves to a response object,
and a Firebase write either succeeds or throws.  The Firebase voters
collection is modelled as an association list in enumeration order,
the two log collections as lists in push order.
-/

/-- A stored voter record, as written by the register handler
(server.js lines 115-123). -/
structure Voter where
  id : String
  name : String
  email : String
  registrationDate : String
  faceEncoding : List ℚ
  status : String
  createdAt : Int
deriving Repr, DecidableEq

/-- Outcome of one axios.post call against the face service, for the
compare-faces route: the promise either rejects (connRefused records
whether error.code is ECONNREFUSED) or resolves to a response whose
data carries a success flag and a confidence number. -/
inductive CompareOutcome where
  | throws (connRefused : Bool)
  | response (success : Bool) (confidence : ℚ)
deriving Repr, DecidableEq

/-- Outcome of one axios.post call against the extract-features route:
rejection, or a response carrying a success flag and a face encoding. -/
inductive ExtractOutcome where
  | throws (connRefused : Bool)
  | response (success : Bool) (faceEncoding : List ℚ)
deriving Repr, DecidableEq

/-- One record of the authentication_logs collection
(server.js lines 199-206). -/
structure AuthLogRecord where
  timestamp : Int
  voterId : Option String
  voterName : Option String
  result : String
  confidence : ℚ
  ipAddress : String
deriving Repr, DecidableEq

/-- One record of the registration_logs collection
(server.js lines 129-134). -/
structure RegistrationLogRecord where
  voterId : String
  voterName : String
  timestamp : Int
  action : String
deriving Repr, DecidableEq

/-- The confidence threshold of the authenticate handler
(server.js line 179). -/
def CONFIDENCE_THRESHOLD : ℚ := 85 / 100

/-- The 1:N comparison loop of the authenticate handler
(server.js lines 182-194).  Walks the voters enumeration carrying the
running bestMatch and bestConfidence; voters whose status is not
active are skipped without calling the face service; for the others
the compare-faces call is made: a rejected promise aborts the whole
loop (the exception propagates to the catch block), a resolved
response updates the running best exactly when data.success holds and
data.confidence strictly exceeds the running bestConfidence.  The
last component accumulates the ids for which compare-faces was
invoked, in call order. -/
def compareLoop (compareFaces : List ℚ → List ℚ → CompareOutcome) (probe : List ℚ) :
    List (String × Voter) → Option (String × Voter) → ℚ → List String →
    Except Bool (Option (String × Voter) × ℚ × List String)
  | [], bestMatch, bestConfidence, called => .ok (bestMatch, bestConfidence, called)
  | (voterId, voter) :: rest, bestMatch, bestConfidence, called =>
    if voter.status ≠ "active" then
      compareLoop compareFaces probe rest bestMatch bestConfidence called
    else
      match compareFaces probe voter.faceEncoding with
      | .throws connRefused => .error connRefused
      | .response success confidence =>
        if success = true ∧ confidence > bestConfidence then
          compareLoop compareFaces probe rest (some (voterId, voter)) confidence
            (called ++ [voterId])
        else
          compareLoop compareFaces probe rest bestMatch bestConfidence
            (called ++ [voterId])

/-- Response of the authenticate handler, by status code and body. -/
inductive AuthResponse where
  | ok (voterId name email : String) (confidence : ℚ)
  | unauthorized (confidence : ℚ)
  | badRequest
  | serviceUnavailable
  | internalError
deriving Repr, DecidableEq

/-- The authenticate handler from the extract-features call onward
(server.js lines 162-234), with input validation already passed.
Parameters: the face-service behaviour for compare-faces, the outcome
of the extract-features call, the voters collection in enumeration
order, whether the push onto authentication_logs succeeds, the server
timestamp, the request ip, and the current authentication_logs list.
Returns the HTTP response together with the new authentication_logs
list.  A rejected axios promise or a rejected push lands in the catch
block: 503 when the code is ECONNREFUSED, 500 otherwise, with no log
record written. -/
def authenticate (compareFaces : List ℚ → List ℚ → CompareOutcome)
    (extractOutcome : ExtractOutcome) (voters : List (String × Voter))
    (logPushOk : Bool) (now : Int) (ip : String)
    (authentication_logs : List AuthLogRecord) :
    AuthResponse × List AuthLogRecord :=
  match extractOutcome with
  | .throws connRefused =>
    ((if connRefused then .serviceUnavailable else .internalError), authentication_logs)
  | .response false _ => (.badRequest, authentication_logs)
  | .response true probe =>
    match compareLoop compareFaces probe voters none 0 [] with
    | .error connRefused =>
      ((if connRefused then .serviceUnavailable else .internalError), authentication_logs)
    | .ok (bestMatch, bestConfidence, _) =>
      let authResult : Bool := bestConfidence ≥ CONFIDENCE_THRESHOLD
      if logPushOk then
        let record : AuthLogRecord :=
          { timestamp := now
            voterId := bestMatch.map (fun p => p.1)
            voterName := bestMatch.map (fun p => p.2.name)
            result := if authResult then "success" else "failed"
            confidence := bestConfidence
            ipAddress := ip }
        let logs := authentication_logs ++ [record]
        if authResult then
          match bestMatch with
          | some (voterId, voter) => (.ok voterId voter.name voter.email bestConfidence, logs)
          | none => (.internalError, logs)
        else
          (.unauthorized bestConfidence, logs)
      else
        (.internalError, authentication_logs)

/-- Response of the register handler, by status code and body. -/
inductive RegisterResponse where
  | created (voterId : String)
  | conflict
  | badRequest
  | serviceUnavailable
  | internalError
deriving Repr, DecidableEq

/-- The register handler (server.js lines 87-150), with input
validation already passed.  Order of effects as in the source: the
duplicate-email query over the voters collection first (line 98), the
extract-features call next, then the set of voters/voterId, then the
push onto registration_logs.  setOk and logPushOk say whether those
two Firebase writes succeed; a rejected write lands in the catch
block (500, since Firebase errors carry no ECONNREFUSED code).
Returns the response with the new voters and registration_logs. -/
def register (extractOutcome : ExtractOutcome) (name email : String)
    (newVoterId : String) (registrationDate : String) (now : Int)
    (setOk logPushOk : Bool) (voters : List (String × Voter))
    (registration_logs : List RegistrationLogRecord) :
    RegisterResponse × List (String × Voter) × List RegistrationLogRecord :=
  if voters.any (fun p => p.2.email = email) then
    (.conflict, voters, registration_logs)
  else
    match extractOutcome with
    | .throws connRefused =>
      ((if connRefused then .serviceUnavailable else .internalError),
        voters, registration_logs)
    | .response false _ => (.badRequest, voters, registration_logs)
    | .response true faceEncoding =>
      let voterData : Voter :=
        { id := newVoterId
          name := name
          email := email
          registrationDate := registrationDate
          faceEncoding := faceEncoding
          status := "active"
          createdAt := now }
      if setOk then
        let voters' := voters ++ [(newVoterId, voterData)]
        if logPushOk then
          (.created newVoterId, voters',
            registration_logs ++
              [{ voterId := newVoterId, voterName := name, timestamp := now,
                 action := "registered" }])
        else
          (.internalError, voters', registration_logs)
      else
        (.internalError, voters, registration_logs)

/-- Firebase limitToLast n on a collection listed in key order: the
last n elements. -/
def limitToLast (n : Nat) (l : List α) : List α := l.drop (l.length - n)

/-- The successfulAuthsToday computation of the dashboard stats
handler (server.js lines 241, 250-258): over the last 100
authentication_logs records, count those with timestamp strictly
greater than the start of the current day and result success. -/
def successfulAuthsToday (authentication_logs : List AuthLogRecord)
    (todayTimestamp : Int) : Nat :=
  ((limitToLast 100 authentication_logs).filter
    (fun log => todayTimestamp < log.timestamp ∧ log.result = "success")).length

/-- The effective limit of the dashboard logs handler (server.js line
285): parseInt of the query parameter, with NaN and 0 falling back to
10 via the JS or, then capped at 50 by Math.min.  none models an
absent or non-numeric query parameter. -/
def effectiveLimit (requested : Option Int) : Int :=
  min (match requested with
        | none => 10
        | some v => if v = 0 then 10 else v) 50

/-- The dashboard logs handler (server.js lines 283-301): order the
authentication_logs entries by the timestamp child ascending, keep
the last limit entries, and reverse so the most recent comes first.
Firebase rejects a limitToLast with a non-positive limit, so a
negative effective limit lands in the catch block and no list is
returned (none). -/
def dashboardLogs (authentication_logs : List (String × AuthLogRecord))
    (requested : Option Int) : Option (List (String × AuthLogRecord)) :=
  let limit := effectiveLimit requested
  if limit ≤ 0 then none
  else
    let ordered := authentication_logs.mergeSort
      (fun a b => a.2.timestamp ≤ b.2.timestamp)
    some ((limitToLast limit.toNat ordered).reverse)

/-- The full database state touched by the handlers. -/
structure Database where
  voters : List (String × Voter)
  authentication_logs : List AuthLogRecord
  registration_logs : List RegistrationLogRecord
deriving Repr, DecidableEq

/-- Modelled from the spec: src/ has no revoke endpoint; only the
snapshot filter that skips voters whose status is not active appears
in server.js (line 183).  Spec section 4.1: revoke(id) marks a
template inactive so that it stops participating in future snapshots,
and fails with NotFound on an unknown id; it touches nothing else. -/
def revoke (db : Database) (targetId : String) : Except Unit Database :=
  if db.voters.any (fun p => p.1 = targetId) then
    .ok { db with
          voters := db.voters.map (fun p =>
            if p.1 = targetId then (p.1, { p.2 with status := "revoked" }) else p) }
  else
    .error ()

/-- The active snapshot the comparison loop effectively scans: the
voters kept by the status filter of server.js line 183. -/
def activeVoters (voters : List (String × Voter)) : List (String × Voter) :=
  voters.filter (fun p => p.2.status = "active")

/-! Interleaving model of two concurrent register calls.

Each register call performs two store-relevant steps against the
shared voters collection, in this order (server.js lines 98 and 126):
the duplicate-email check, then the write of the new voter record.
Both steps are separate awaited Firebase operations, so another
request may run between them.  The model below runs two calls under
an explicit schedule; each step is exactly the corresponding step of
the register handler (extraction assumed successful and both Firebase
writes assumed to succeed, so that only the interleaving matters). -/

/-- Program counter of one in-flight register call. -/
inductive RegPhase where
  | toCheck
  | toWrite
  | doneConflict
  | doneCreated
deriving Repr, DecidableEq

/-- The per-call inputs of one register call. -/
structure RegCall where
  name : String
  email : String
  newVoterId : String
  registrationDate : String
  faceEncoding : List ℚ
  now : Int
deriving Repr, DecidableEq

/-- The voter record a register call writes (server.js lines 115-123). -/
def RegCall.voterData (c : RegCall) : Voter :=
  { id := c.newVoterId
    name := c.name
    email := c.email
    registrationDate := c.registrationDate
    faceEncoding := c.faceEncoding
    status := "active"
    createdAt := c.now }

/-- One store-relevant step of a register call: the duplicate check
(server.js lines 98-101) or the voter write (line 126).  A finished
call steps to itself. -/
def regStep (store : List (String × Voter)) (c : RegCall) :
    RegPhase → RegPhase × List (String × Voter)
  | .toCheck =>
    if store.any (fun p => p.2.email = c.email) then (.doneConflict, store)
    else (.toWrite, store)
  | .toWrite => (.doneCreated, store ++ [(c.newVoterId, c.voterData)])
  | .doneConflict => (.doneConflict, store)
  | .doneCreated => (.doneCreated, store)

/-- Run two register calls a and b under a schedule: false picks the
next step of a, true picks the next step of b. -/
def runSchedule (a b : RegCall) :
    List Bool → RegPhase × RegPhase × List (String × Voter) →
    RegPhase × RegPhase × List (String × Voter)
  | [], s => s
  | pick :: rest, (pa, pb, store) =>
    if pick then
      let (pb', store') := regStep store b pb
      runSchedule a b rest (pa, pb', store')
    else
      let (pa', store') := regStep store a pa
      runSchedule a b rest (pa', pb, store')

/-- The comparison loop of server.js lines 182-194 restricted to the
case where every scanned comparison resolves successfully, expressed
over the already-filtered active snapshot with the per-template score
function f: the running best is replaced exactly when the next score
strictly exceeds it. -/
def pureLoop (f : String × Voter → ℚ) :
    List (String × Voter) → Option (String × Voter) → ℚ →
    Option (String × Voter) × ℚ
  | [], bestMatch, bestConfidence => (bestMatch, bestConfidence)
  | p :: rest, bestMatch, bestConfidence =>
    if f p > bestConfidence then pureLoop f rest (some p) (f p)
    else pureLoop f rest bestMatch bestConfidence

/-! Helper lemmas about the comparison loop. -/

theorem compareLoop_all_inactive (cf : List ℚ → List ℚ → CompareOutcome) (probe : List ℚ)
    (l : List (String × Voter)) (bm : Option (String × Voter)) (bc : ℚ) (acc : List String)
    (h : ∀ p ∈ l, p.2.status ≠ "active") :
    compareLoop cf probe l bm bc acc = .ok (bm, bc, acc) := by
  induction l generalizing bm bc acc with
  | nil => rfl
  | cons p rest ih =>
    obtain ⟨vid, v⟩ := p
    have hv : v.status ≠ "active" := h (vid, v) (List.mem_cons_self _ _)
    rw [compareLoop, if_pos hv]
    exact ih bm bc acc (fun q hq => h q (List.mem_cons_of_mem _ hq))

theorem compareLoop_eq_pureLoop (cf : List ℚ → List ℚ → CompareOutcome) (probe : List ℚ)
    (f : String × Voter → ℚ) (l : List (String × Voter))
    (bm : Option (String × Voter)) (bc : ℚ) (acc : List String)
    (h : ∀ p ∈ l, p.2.status = "active" →
      cf probe p.2.faceEncoding = .response true (f p)) :
    compareLoop cf probe l bm bc acc =
      .ok ((pureLoop f (activeVoters l) bm bc).1, (pureLoop f (activeVoters l) bm bc).2,
        acc ++ (activeVoters l).map (fun p => p.1)) := by
  induction l generalizing bm bc acc with
  | nil => simp [compareLoop, activeVoters, pureLoop]
  | cons p rest ih =>
    obtain ⟨vid, v⟩ := p
    have hrest : ∀ q ∈ rest, q.2.status = "active" →
        cf probe q.2.faceEncoding = .response true (f q) :=
      fun q hq => h q (List.mem_cons_of_mem _ hq)
    by_cases hv : v.status = "active"
    · have hcf := h (vid, v) (List.mem_cons_self _ _) hv
      have hact : activeVoters ((vid, v) :: rest) = (vid, v) :: activeVoters rest := by
        simp [activeVoters, List.filter_cons, hv]
      simp only [compareLoop, if_neg (not_not_intro hv), hcf, eq_self_iff_true, true_and]
      by_cases hgt : f (vid, v) > bc
      · rw [if_pos hgt, ih _ _ _ hrest, hact]
        simp [pureLoop, hgt]
      · rw [if_neg hgt, ih _ _ _ hrest, hact]
        simp [pureLoop, hgt]
    · rw [compareLoop, if_pos hv]
      have hact : activeVoters ((vid, v) :: rest) = activeVoters rest := by
        simp [activeVoters, List.filter_cons, hv]
      rw [ih _ _ _ hrest, hact]

theorem pureLoop_snd (f : String × Voter → ℚ) (l : List (String × Voter))
    (bm : Option (String × Voter)) (bc : ℚ) :
    (pureLoop f l bm bc).2 = l.foldl (fun c p => max c (f p)) bc := by
  induction l generalizing bm bc with
  | nil => rfl
  | cons p rest ih =>
    simp only [pureLoop, List.foldl_cons]
    by_cases hgt : f p > bc
    · rw [if_pos hgt, ih, max_eq_right hgt.le]
    · rw [if_neg hgt, ih, max_eq_left (le_of_not_lt hgt)]

theorem le_foldl_max (f : String × Voter → ℚ) (l : List (String × Voter)) (c : ℚ) :
    c ≤ l.foldl (fun c p => max c (f p)) c := by
  induction l generalizing c with
  | nil => exact le_refl c
  | cons p rest ih =>
    simp only [List.foldl_cons]
    exact le_trans (le_max_left _ _) (ih _)

theorem foldl_max_attained (f : String × Voter → ℚ) (l : List (String × Voter)) (c : ℚ) :
    l.foldl (fun c p => max c (f p)) c = c ∨
      ∃ p ∈ l, f p = l.foldl (fun c p => max c (f p)) c := by
  induction l generalizing c with
  | nil => exact Or.inl rfl
  | cons p rest ih =>
    simp only [List.foldl_cons]
    rcases ih (max c (f p)) with h | ⟨q, hq, hfq⟩
    · rw [h]
      rcases max_choice c (f p) with hm | hm
      · exact Or.inl hm
      · exact Or.inr ⟨p, List.mem_cons_self _ _, hm.symm⟩
    · exact Or.inr ⟨q, List.mem_cons_of_mem _ hq, hfq⟩

theorem foldl_max_ub (f : String × Voter → ℚ) (l : List (String × Voter)) (c : ℚ) :
    ∀ p ∈ l, f p ≤ l.foldl (fun c q => max c (f q)) c := by
  induction l generalizing c with
  | nil => intro p hp; cases hp
  | cons q rest ih =>
    intro p hp
    simp only [List.foldl_cons]
    rcases List.mem_cons.mp hp with rfl | hp'
    · exact le_trans (le_max_right _ _) (le_foldl_max f rest _)
    · exact ih _ p hp'

theorem pureLoop_fst_of_eq (f : String × Voter → ℚ) (l : List (String × Voter))
    (bm : Option (String × Voter)) (bc : ℚ)
    (h : l.foldl (fun c p => max c (f p)) bc = bc) :
    (pureLoop f l bm bc).1 = bm := by
  induction l generalizing bm bc with
  | nil => rfl
  | cons p rest ih =>
    rw [List.foldl_cons] at h
    have h1 : max bc (f p) ≤ bc := le_of_le_of_eq (le_foldl_max f rest _) h
    have hle : f p ≤ bc := le_trans (le_max_right _ _) h1
    have hmax : max bc (f p) = bc := max_eq_left hle
    rw [hmax] at h
    rw [pureLoop, if_neg (not_lt.mpr hle)]
    exact ih bm bc h

theorem pureLoop_fst_of_lt (f : String × Voter → ℚ) (l : List (String × Voter))
    (bm : Option (String × Voter)) (bc : ℚ)
    (h : bc < l.foldl (fun c p => max c (f p)) bc) :
    (pureLoop f l bm bc).1 =
      l.find? (fun q => decide (f q = l.foldl (fun c p => max c (f p)) bc)) := by
  induction l generalizing bm bc with
  | nil => exact absurd h (lt_irrefl bc)
  | cons p rest ih =>
    rw [List.foldl_cons] at h ⊢
    by_cases hgt : f p > bc
    · have hinit : max bc (f p) = f p := max_eq_right hgt.le
      rw [hinit] at h ⊢
      rw [pureLoop, if_pos hgt]
      by_cases hlt : f p < rest.foldl (fun c q => max c (f q)) (f p)
      · rw [List.find?_cons_of_neg _ (by simp [ne_of_lt hlt]), ih (some p) (f p) hlt]
      · have heq : rest.foldl (fun c q => max c (f q)) (f p) = f p :=
          le_antisymm (not_lt.mp hlt) (le_foldl_max f rest _)
        rw [List.find?_cons_of_pos _ (by simp [heq]), pureLoop_fst_of_eq f rest _ _ heq]
    · have hle : f p ≤ bc := not_lt.mp hgt
      have hinit : max bc (f p) = bc := max_eq_left hle
      rw [hinit] at h ⊢
      have hne : f p ≠ rest.foldl (fun c q => max c (f q)) bc :=
        ne_of_lt (lt_of_le_of_lt hle h)
      rw [pureLoop, if_neg hgt, List.find?_cons_of_neg _ (by simp [hne]), ih bm bc h]

theorem compareLoop_error_iff (cf : List ℚ → List ℚ → CompareOutcome) (probe : List ℚ)
    (l : List (String × Voter)) (bm : Option (String × Voter)) (bc : ℚ)
    (acc : List String) :
    (∃ b, compareLoop cf probe l bm bc acc = .error b) ↔
      ∃ p ∈ l, p.2.status = "active" ∧ ∃ b, cf probe p.2.faceEncoding = .throws b := by
  induction l generalizing bm bc acc with
  | nil => simp [compareLoop]
  | cons p rest ih =>
    obtain ⟨vid, v⟩ := p
    by_cases hv : v.status = "active"
    · cases hcf : cf probe v.faceEncoding with
      | throws b =>
        simp only [compareLoop, if_neg (not_not_intro hv), hcf]
        constructor
        · intro
          exact ⟨(vid, v), List.mem_cons_self _ _, hv, b, hcf⟩
        · intro
          exact ⟨b, rfl⟩
      | response s c =>
        have hext : (∃ q ∈ rest, q.2.status = "active" ∧
              ∃ b, cf probe q.2.faceEncoding = .throws b) ↔
            ∃ q ∈ (vid, v) :: rest, q.2.status = "active" ∧
              ∃ b, cf probe q.2.faceEncoding = .throws b := by
          constructor
          · rintro ⟨q, hq, h2⟩
            exact ⟨q, List.mem_cons_of_mem _ hq, h2⟩
          · rintro ⟨q, hq, hact, b, hthrows⟩
            rcases List.mem_cons.mp hq with rfl | hq'
            · exact absurd (hcf.symm.trans hthrows) (by simp)
            · exact ⟨q, hq', hact, b, hthrows⟩
        simp only [compareLoop, if_neg (not_not_intro hv), hcf]
        by_cases hcond : s = true ∧ c > bc
        · rw [if_pos hcond, ih]
          exact hext
        · rw [if_neg hcond, ih]
          exact hext
    · have hext : (∃ q ∈ rest, q.2.status = "active" ∧
            ∃ b, cf probe q.2.faceEncoding = .throws b) ↔
          ∃ q ∈ (vid, v) :: rest, q.2.status = "active" ∧
            ∃ b, cf probe q.2.faceEncoding = .throws b := by
        constructor
        · rintro ⟨q, hq, h2⟩
          exact ⟨q, List.mem_cons_of_mem _ hq, h2⟩
        · rintro ⟨q, hq, hact, h2⟩
          rcases List.mem_cons.mp hq with rfl | hq'
          · exact absurd hact hv
          · exact ⟨q, hq', hact, h2⟩
      rw [compareLoop, if_pos hv, ih]
      exact hext

theorem compareLoop_ok_of_no_throw (cf : List ℚ → List ℚ → CompareOutcome) (probe : List ℚ)
    (l : List (String × Voter)) (bm : Option (String × Voter)) (bc : ℚ)
    (acc : List String)
    (h : ∀ p ∈ l, p.2.status = "active" → ∀ b, cf probe p.2.faceEncoding ≠ .throws b) :
    ∃ r, compareLoop cf probe l bm bc acc = .ok r := by
  cases hc : compareLoop cf probe l bm bc acc with
  | ok r => exact ⟨r, rfl⟩
  | error b =>
    obtain ⟨q, hq, hact, b', hthrows⟩ :=
      (compareLoop_error_iff cf probe l bm bc acc).mp ⟨b, hc⟩
    exact absurd hthrows (h q hq hact b')

theorem compareLoop_bestMatch_none_iff (cf : List ℚ → List ℚ → CompareOutcome)
    (probe : List ℚ) (l : List (String × Voter)) (bm : Option (String × Voter))
    (bc : ℚ) (acc : List String) (r : Option (String × Voter) × ℚ × List String)
    (hok : compareLoop cf probe l bm bc acc = .ok r) :
    r.1 = none ↔ bm = none ∧ ∀ p ∈ l, p.2.status = "active" →
      ∀ c, cf probe p.2.faceEncoding = .response true c → c ≤ bc := by
  induction l generalizing bm bc acc with
  | nil =>
    rw [compareLoop] at hok
    cases hok
    simp
  | cons p rest ih =>
    obtain ⟨vid, v⟩ := p
    by_cases hv : v.status = "active"
    · cases hcf : cf probe v.faceEncoding with
      | throws b =>
        rw [compareLoop, if_neg (not_not_intro hv), hcf] at hok
        cases hok
      | response s c =>
        simp only [compareLoop, if_neg (not_not_intro hv), hcf] at hok
        by_cases hcond : s = true ∧ c > bc
        · rw [if_pos hcond] at hok
          rw [ih _ _ _ hok]
          constructor
          · rintro ⟨hsome, -⟩
            cases hsome
          · rintro ⟨h1, h2⟩
            have hc' : cf probe v.faceEncoding = .response true c := by
              rw [hcf, hcond.1]
            have := h2 (vid, v) (List.mem_cons_self _ _) hv c hc'
            exact absurd hcond.2 (not_lt.mpr this)
        · rw [if_neg hcond] at hok
          rw [ih _ _ _ hok]
          constructor
          · rintro ⟨h1, h2⟩
            refine ⟨h1, fun q hq hact c' hcq => ?_⟩
            rcases List.mem_cons.mp hq with rfl | hq'
            · have hcq' : CompareOutcome.response s c = .response true c' :=
                hcf.symm.trans hcq
              injection hcq' with hs hc
              rw [← hc]
              exact le_of_not_lt (fun hgt => hcond ⟨hs, hgt⟩)
            · exact h2 q hq' hact c' hcq
          · rintro ⟨h1, h2⟩
            exact ⟨h1, fun q hq => h2 q (List.mem_cons_of_mem _ hq)⟩
    · rw [compareLoop, if_pos hv] at hok
      rw [ih _ _ _ hok]
      constructor
      · rintro ⟨h1, h2⟩
        refine ⟨h1, fun q hq hact => ?_⟩
        rcases List.mem_cons.mp hq with rfl | hq'
        · exact absurd hact hv
        · exact h2 q hq' hact
      · rintro ⟨h1, h2⟩
        exact ⟨h1, fun q hq => h2 q (List.mem_cons_of_mem _ hq)⟩

theorem compareLoop_called_subset (cf : List ℚ → List ℚ → CompareOutcome)
    (probe : List ℚ) (l : List (String × Voter)) (bm : Option (String × Voter))
    (bc : ℚ) (acc : List String) (r : Option (String × Voter) × ℚ × List String)
    (hok : compareLoop cf probe l bm bc acc = .ok r) :
    ∀ i ∈ r.2.2, i ∈ acc ∨ ∃ v, (i, v) ∈ l ∧ v.status = "active" := by
  induction l generalizing bm bc acc with
  | nil =>
    rw [compareLoop] at hok
    cases hok
    intro i hi
    exact Or.inl hi
  | cons p rest ih =>
    obtain ⟨vid, v⟩ := p
    by_cases hv : v.status = "active"
    · cases hcf : cf probe v.faceEncoding with
      | throws b =>
        rw [compareLoop, if_neg (not_not_intro hv), hcf] at hok
        cases hok
      | response s c =>
        simp only [compareLoop, if_neg (not_not_intro hv), hcf] at hok
        have step : ∀ bm' bc', compareLoop cf probe rest bm' bc' (acc ++ [vid]) = .ok r →
            ∀ i ∈ r.2.2, i ∈ acc ∨ ∃ w, (i, w) ∈ (vid, v) :: rest ∧ w.status = "active" := by
          intro bm' bc' hok' i hi
          rcases ih _ _ _ hok' i hi with hacc | ⟨w, hw, hwact⟩
          · rcases List.mem_append.mp hacc with h1 | h2
            · exact Or.inl h1
            · have hieq : i = vid := by simpa using h2
              exact Or.inr ⟨v, by rw [hieq]; exact List.mem_cons_self _ _, hv⟩
          · exact Or.inr ⟨w, List.mem_cons_of_mem _ hw, hwact⟩
        by_cases hcond : s = true ∧ c > bc
        · rw [if_pos hcond] at hok
          exact step _ _ hok
        · rw [if_neg hcond] at hok
          exact step _ _ hok
    · rw [compareLoop, if_pos hv] at hok
      intro i hi
      rcases ih _ _ _ hok i hi with h1 | ⟨w, hw, hwact⟩
      · exact Or.inl h1
      · exact Or.inr ⟨w, List.mem_cons_of_mem _ hw, hwact⟩

/-! Claim theorems. -/

/-- C5: a register call whose email already exists among stored voters
of any status fails with the 409 conflict response, and neither the
voters collection nor the registration log changes. -/
theorem register_duplicate_email_conflict
    (extractOutcome : ExtractOutcome) (name email newVoterId registrationDate : String)
    (now : Int) (setOk logPushOk : Bool) (voters : List (String × Voter))
    (registration_logs : List RegistrationLogRecord)
    (h : ∃ p ∈ voters, p.2.email = email) :
    register extractOutcome name email newVoterId registrationDate now setOk logPushOk
      voters registration_logs = (.conflict, voters, registration_logs) := by
  have hany : voters.any (fun p => p.2.email = email) = true := by
    obtain ⟨p, hp, he⟩ := h
    exact List.any_eq_true.mpr ⟨p, hp, by simp [he]⟩
  rw [register.eq_def, if_pos hany]

/-- Witness for C5 at a concrete store holding a revoked voter with
the same email. -/
theorem register_duplicate_email_conflict_witness :
    register (.response true [1]) "B" "a@x.io" "id2" "d2" 5 true true
      [("id1", { id := "id1", name := "A", email := "a@x.io", registrationDate := "d1",
                 faceEncoding := [0], status := "revoked", createdAt := 0 })] [] =
      (.conflict,
        [("id1", { id := "id1", name := "A", email := "a@x.io", registrationDate := "d1",
                   faceEncoding := [0], status := "revoked", createdAt := 0 })], []) :=
  register_duplicate_email_conflict (.response true [1]) "B" "a@x.io" "id2" "d2" 5 true true
    _ [] ⟨_, List.mem_cons_self _ _, rfl⟩

/-- C6: against a population with no active voters, the comparison
loop never invokes the compare-faces oracle (its called list stays
empty) and the authenticate handler returns 401 with confidence 0,
logging a failed attempt with confidence 0 and no voter id. -/
theorem authenticate_empty_active_no_oracle
    (cf : List ℚ → List ℚ → CompareOutcome) (probe : List ℚ)
    (voters : List (String × Voter)) (now : Int) (ip : String)
    (logs : List AuthLogRecord)
    (h : ∀ p ∈ voters, p.2.status ≠ "active") :
    compareLoop cf probe voters none 0 [] = .ok (none, 0, []) ∧
    authenticate cf (.response true probe) voters true now ip logs =
      (.unauthorized 0,
        logs ++ [{ timestamp := now, voterId := none, voterName := none,
                   result := "failed", confidence := 0, ipAddress := ip }]) := by
  have hloop := compareLoop_all_inactive cf probe voters none 0 [] h
  refine ⟨hloop, ?_⟩
  simp only [authenticate, hloop]
  norm_num [CONFIDENCE_THRESHOLD]

/-- Witness for C6 at a store holding one revoked voter. -/
theorem authenticate_empty_active_no_oracle_witness :
    compareLoop (fun _ _ => .response true 1) [2]
      [("id1", { id := "id1", name := "A", email := "a@x.io", registrationDate := "d",
                 faceEncoding := [0], status := "revoked", createdAt := 0 })]
      none 0 [] = .ok (none, 0, []) ∧
    authenticate (fun _ _ => .response true 1) (.response true [2])
      [("id1", { id := "id1", name := "A", email := "a@x.io", registrationDate := "d",
                 faceEncoding := [0], status := "revoked", createdAt := 0 })]
      true 7 "ip" [] =
      (.unauthorized 0,
        [{ timestamp := 7, voterId := none, voterName := none,
           result := "failed", confidence := 0, ipAddress := "ip" }]) :=
  authenticate_empty_active_no_oracle (fun _ _ => .response true 1) [2] _ 7 "ip" []
    (by intro p hp; rcases List.mem_cons.mp hp with rfl | hq
        · simp
        · cases hq)

/-- C8: whatever limit value the dashboard logs query requests, a
returned sequence is ordered by timestamp descending (most recent
first) and its length never exceeds the hard maximum 50. -/
theorem dashboardLogs_desc_and_capped
    (authentication_logs : List (String × AuthLogRecord)) (requested : Option Int)
    (seq : List (String × AuthLogRecord))
    (h : dashboardLogs authentication_logs requested = some seq) :
    seq.length ≤ 50 ∧ seq.Pairwise (fun a b => b.2.timestamp ≤ a.2.timestamp) := by
  rw [dashboardLogs] at h
  by_cases hl : effectiveLimit requested ≤ 0
  · rw [if_pos hl] at h
    cases h
  · rw [if_neg hl] at h
    injection h with h
    subst h
    have h50 : effectiveLimit requested ≤ 50 := min_le_right _ _
    constructor
    · rw [List.length_reverse, limitToLast, List.length_drop]
      omega
    · have hsorted := @List.sorted_mergeSort (String × AuthLogRecord)
        (fun a b => decide (a.2.timestamp ≤ b.2.timestamp))
        (fun a b c h1 h2 => by
          simp only [decide_eq_true_eq] at h1 h2 ⊢
          exact le_trans h1 h2)
        (fun a b => by
          simp only [Bool.or_eq_true, decide_eq_true_eq]
          exact le_total a.2.timestamp b.2.timestamp)
        authentication_logs
      have hsorted' : (authentication_logs.mergeSort
          (fun a b => a.2.timestamp ≤ b.2.timestamp)).Pairwise
          (fun a b => a.2.timestamp ≤ b.2.timestamp) :=
        hsorted.imp (fun hab => by simpa using hab)
      rw [limitToLast]
      exact List.pairwise_reverse.mpr (hsorted'.sublist (List.drop_sublist _ _))

/-- Witness for C8 at a concrete one-entry log and requested limit 500. -/
theorem dashboardLogs_desc_and_capped_witness :
    ([(("k1" : String),
       { timestamp := 3, voterId := none, voterName := none, result := "failed",
         confidence := 0, ipAddress := "ip" : AuthLogRecord })]).length ≤ 50 ∧
    List.Pairwise (fun a b => b.2.timestamp ≤ a.2.timestamp)
      [(("k1" : String),
        { timestamp := 3, voterId := none, voterName := none, result := "failed",
          confidence := 0, ipAddress := "ip" : AuthLogRecord })] :=
  dashboardLogs_desc_and_capped
    [("k1", { timestamp := 3, voterId := none, voterName := none, result := "failed",
              confidence := 0, ipAddress := "ip" })] (some 500) _
    (by simp [dashboardLogs, effectiveLimit, limitToLast, List.mergeSort_singleton])

/-- C1: with a non-empty active snapshot and the compare-faces oracle
resolving a score for every active voter, the authenticate handler
compares every active voter in snapshot order with no early exit, the
reported confidence is the global maximum of the scores over the
snapshot, the attempt matches exactly when that maximum reaches
CONFIDENCE_THRESHOLD, and on a match the returned voter is the first
one in snapshot order achieving the maximum, so later equal scores do
not displace it. -/
theorem authenticate_global_max
    (cf : List ℚ → List ℚ → CompareOutcome) (probe : List ℚ)
    (voters : List (String × Voter)) (now : Int) (ip : String)
    (logs : List AuthLogRecord) (f : String × Voter → ℚ)
    (hok : ∀ p ∈ voters, p.2.status = "active" →
      cf probe p.2.faceEncoding = .response true (f p))
    (hnonneg : ∀ p ∈ voters, p.2.status = "active" → 0 ≤ f p)
    (hne : activeVoters voters ≠ []) :
    ∀ M, M = (activeVoters voters).foldl (fun c p => max c (f p)) 0 →
      (∃ p ∈ activeVoters voters, f p = M) ∧
      (∀ p ∈ activeVoters voters, f p ≤ M) ∧
      (∃ bm, compareLoop cf probe voters none 0 [] =
        .ok (bm, M, (activeVoters voters).map (fun p => p.1))) ∧
      (CONFIDENCE_THRESHOLD ≤ M →
        ∃ p₀, (activeVoters voters).find? (fun q => decide (f q = M)) = some p₀ ∧
          (authenticate cf (.response true probe) voters true now ip logs).1 =
            .ok p₀.1 p₀.2.name p₀.2.email M) ∧
      (M < CONFIDENCE_THRESHOLD →
        (authenticate cf (.response true probe) voters true now ip logs).1 =
          .unauthorized M) := by
  intro M hM
  have hfilter : ∀ p ∈ activeVoters voters, p ∈ voters ∧ p.2.status = "active" := by
    intro p hp
    have := List.mem_filter.mp hp
    exact ⟨this.1, by simpa using this.2⟩
  have hub : ∀ p ∈ activeVoters voters, f p ≤ M := by
    rw [hM]
    exact foldl_max_ub f _ 0
  have hattained : ∃ p ∈ activeVoters voters, f p = M := by
    rcases foldl_max_attained f (activeVoters voters) 0 with h0 | hex
    · obtain ⟨p, hp⟩ := List.exists_mem_of_ne_nil _ hne
      have h0' : M = 0 := hM.trans h0
      have hge : 0 ≤ f p := hnonneg p (hfilter p hp).1 (hfilter p hp).2
      exact ⟨p, hp, le_antisymm (hub p hp) (by rw [h0']; exact hge)⟩
    · obtain ⟨p, hp, hfp⟩ := hex
      exact ⟨p, hp, by rw [hM]; exact hfp⟩
  have hloop := compareLoop_eq_pureLoop cf probe f voters none 0 [] hok
  have hsnd : (pureLoop f (activeVoters voters) none 0).2 = M := by
    rw [pureLoop_snd, hM]
  refine ⟨hattained, hub, ⟨(pureLoop f (activeVoters voters) none 0).1, ?_⟩, ?_, ?_⟩
  · rw [hloop, hsnd]
    simp
  · intro hthr
    have hpos : (0 : ℚ) < M :=
      lt_of_lt_of_le (by norm_num [CONFIDENCE_THRESHOLD]) hthr
    have hlt : (0 : ℚ) < (activeVoters voters).foldl (fun c p => max c (f p)) 0 := by
      rw [← hM]
      exact hpos
    have hfst := pureLoop_fst_of_lt f (activeVoters voters) none 0 hlt
    rw [← hM] at hfst
    have hsome : ((activeVoters voters).find? (fun q => decide (f q = M))).isSome := by
      obtain ⟨p, hp, hfp⟩ := hattained
      exact List.find?_isSome.mpr ⟨p, hp, by simp [hfp]⟩
    obtain ⟨p₀, hp₀⟩ := Option.isSome_iff_exists.mp hsome
    obtain ⟨vid₀, v₀⟩ := p₀
    have hfst' : (pureLoop f (activeVoters voters) none 0).1 = some (vid₀, v₀) :=
      hfst.trans hp₀
    refine ⟨(vid₀, v₀), hp₀, ?_⟩
    simp only [authenticate, hloop, hsnd, hfst']
    simp [ge_iff_le, hthr]
  · intro hlt
    simp only [authenticate, hloop, hsnd]
    simp [ge_iff_le, not_le.mpr hlt]

/-- Once the running bestMatch is set, the comparison loop never
clears it. -/
theorem compareLoop_some_stays (cf : List ℚ → List ℚ → CompareOutcome) (probe : List ℚ)
    (l : List (String × Voter)) (x : String × Voter) (bc : ℚ) (acc : List String)
    (r : Option (String × Voter) × ℚ × List String)
    (hok : compareLoop cf probe l (some x) bc acc = .ok r) : r.1 ≠ none := by
  induction l generalizing x bc acc with
  | nil =>
    rw [compareLoop] at hok
    cases hok
    simp
  | cons p rest ih =>
    obtain ⟨vid, v⟩ := p
    by_cases hv : v.status = "active"
    · cases hcf : cf probe v.faceEncoding with
      | throws b =>
        rw [compareLoop, if_neg (not_not_intro hv), hcf] at hok
        cases hok
      | response s c =>
        simp only [compareLoop, if_neg (not_not_intro hv), hcf] at hok
        by_cases hcond : s = true ∧ c > bc
        · rw [if_pos hcond] at hok
          exact ih _ _ _ hok
        · rw [if_neg hcond] at hok
          exact ih _ _ _ hok
    · rw [compareLoop, if_pos hv] at hok
      exact ih _ _ _ hok

/-- If the comparison loop starts with no bestMatch and ends with no
bestMatch, the final bestConfidence is the initial one. -/
theorem compareLoop_none_snd (cf : List ℚ → List ℚ → CompareOutcome) (probe : List ℚ)
    (l : List (String × Voter)) (bc : ℚ) (acc : List String)
    (r : Option (String × Voter) × ℚ × List String)
    (hok : compareLoop cf probe l none bc acc = .ok r) (hnone : r.1 = none) :
    r.2.1 = bc := by
  induction l generalizing bc acc with
  | nil =>
    rw [compareLoop] at hok
    cases hok
    rfl
  | cons p rest ih =>
    obtain ⟨vid, v⟩ := p
    by_cases hv : v.status = "active"
    · cases hcf : cf probe v.faceEncoding with
      | throws b =>
        rw [compareLoop, if_neg (not_not_intro hv), hcf] at hok
        cases hok
      | response s c =>
        simp only [compareLoop, if_neg (not_not_intro hv), hcf] at hok
        by_cases hcond : s = true ∧ c > bc
        · rw [if_pos hcond] at hok
          exact absurd hnone (compareLoop_some_stays cf probe rest _ _ _ _ hok)
        · rw [if_neg hcond] at hok
          exact ih _ _ hok
    · rw [compareLoop, if_pos hv] at hok
      exact ih _ _ hok

/-- Concrete three-voter population for the C1 witness: voters A and B
tie at score 92/100, C scores 40/100, A first in snapshot order. -/
def votersW : List (String × Voter) :=
  [("A", { id := "A", name := "nA", email := "a@x", registrationDate := "d",
           faceEncoding := [0], status := "active", createdAt := 0 }),
   ("B", { id := "B", name := "nB", email := "b@x", registrationDate := "d",
           faceEncoding := [1], status := "active", createdAt := 1 }),
   ("C", { id := "C", name := "nC", email := "c@x", registrationDate := "d",
           faceEncoding := [2], status := "active", createdAt := 2 })]

/-- Concrete compare-faces behaviour for the C1 witness. -/
def cfW : List ℚ → List ℚ → CompareOutcome := fun _ e =>
  if e = [0] then .response true (92 / 100)
  else if e = [1] then .response true (92 / 100)
  else .response true (40 / 100)

/-- Score function matching cfW on the C1 witness population. -/
def fW : String × Voter → ℚ := fun p =>
  if p.2.faceEncoding = [0] then 92 / 100
  else if p.2.faceEncoding = [1] then 92 / 100
  else 40 / 100

/-- Witness for C1: on the tied population the first maximal voter A
wins at confidence 92/100. -/
theorem authenticate_global_max_witness :
    ∃ p₀, (activeVoters votersW).find? (fun q => decide (fW q = 92 / 100)) = some p₀ ∧
      (authenticate cfW (.response true [9]) votersW true 0 "ip" []).1 =
        .ok p₀.1 p₀.2.name p₀.2.email (92 / 100) :=
  (authenticate_global_max cfW [9] votersW 0 "ip" [] fW
    (by intro p hp hact; fin_cases hp <;> norm_num [cfW, fW])
    (by intro p hp hact; fin_cases hp <;> norm_num [fW])
    (by decide) (92 / 100)
    (by norm_num [activeVoters, votersW, fW])).2.2.2.1
    (by norm_num [CONFIDENCE_THRESHOLD])

/-- C2 (amended): whenever the scan completes and the log push
succeeds, exactly one attempt record is appended; its result is
success iff its confidence reaches CONFIDENCE_THRESHOLD, and success
implies a non-null voter id — but the recorded voter id is non-null
iff some active voter produced a successful comparison with a score
strictly above 0, so a failed attempt with positive best confidence
records a non-null voter id rather than null. -/
theorem auth_log_invariant_amended
    (cf : List ℚ → List ℚ → CompareOutcome) (probe : List ℚ)
    (voters : List (String × Voter)) (now : Int) (ip : String)
    (logs : List AuthLogRecord)
    (hnothrow : ∀ p ∈ voters, p.2.status = "active" →
      ∀ b, cf probe p.2.faceEncoding ≠ .throws b) :
    ∃ rec, (authenticate cf (.response true probe) voters true now ip logs).2 =
        logs ++ [rec] ∧
      (rec.result = "success" ↔ CONFIDENCE_THRESHOLD ≤ rec.confidence) ∧
      (rec.result = "success" → rec.voterId ≠ none) ∧
      (rec.voterId ≠ none ↔ ∃ p ∈ voters, p.2.status = "active" ∧
        ∃ c, cf probe p.2.faceEncoding = .response true c ∧ 0 < c) := by
  obtain ⟨r, hr⟩ := compareLoop_ok_of_no_throw cf probe voters none 0 [] hnothrow
  obtain ⟨bm, bc, called⟩ := r
  have hnone := compareLoop_bestMatch_none_iff cf probe voters none 0 [] _ hr
  simp only [] at hnone
  have hiff : bm ≠ none ↔ ∃ p ∈ voters, p.2.status = "active" ∧
      ∃ c, cf probe p.2.faceEncoding = .response true c ∧ 0 < c := by
    rw [ne_eq, hnone]
    simp only [true_and]
    constructor
    · intro hna
      push_neg at hna
      obtain ⟨p, hp, hact, c, hcf, hc⟩ := hna
      exact ⟨p, hp, hact, c, hcf, hc⟩
    · rintro ⟨p, hp, hact, c, hcf, hc⟩ hall
      exact absurd (hall p hp hact c hcf) (not_le.mpr hc)
  by_cases hthr : CONFIDENCE_THRESHOLD ≤ bc
  · have hbm : bm ≠ none := by
      intro hbmn
      have hbc := compareLoop_none_snd cf probe voters 0 [] _ hr hbmn
      simp only [] at hbc
      rw [hbc] at hthr
      norm_num [CONFIDENCE_THRESHOLD] at hthr
    obtain ⟨p, rfl⟩ := Option.ne_none_iff_exists'.mp hbm
    obtain ⟨vid, v⟩ := p
    refine ⟨{ timestamp := now, voterId := some vid, voterName := some v.name,
              result := "success", confidence := bc, ipAddress := ip }, ?_, ?_, ?_, ?_⟩
    · simp only [authenticate, hr]
      simp [ge_iff_le, hthr]
    · exact iff_of_true rfl hthr
    · intro
      simp
    · exact iff_of_true (by simp) (hiff.mp (by simp))
  · refine ⟨{ timestamp := now, voterId := bm.map (fun p => p.1),
              voterName := bm.map (fun p => p.2.name),
              result := "failed", confidence := bc, ipAddress := ip }, ?_, ?_, ?_, ?_⟩
    · simp only [authenticate, hr]
      simp [ge_iff_le, hthr]
    · exact iff_of_false (by simp) hthr
    · intro hcontra
      exact absurd hcontra (by simp)
    · rw [← hiff]
      simp [Option.map_eq_none']

/-- C2 counterexample: with one active voter scoring 7/10 (below the
0.85 threshold), the attempt record written by authenticate has
result failed and yet a non-null voter id, contradicting the claimed
invariant that a failed attempt records a null template id. -/
theorem auth_log_failed_nonnull_counterexample :
    (authenticate (fun _ _ => .response true (7 / 10)) (.response true [3])
        [("v1", { id := "v1", name := "N", email := "e@x", registrationDate := "d",
                  faceEncoding := [0], status := "active", createdAt := 0 })]
        true 4 "ip" []).2 =
      [{ timestamp := 4, voterId := some "v1", voterName := some "N",
         result := "failed", confidence := 7 / 10, ipAddress := "ip" }] ∧
    (7 : ℚ) / 10 < CONFIDENCE_THRESHOLD := by
  constructor
  · norm_num [authenticate, compareLoop, CONFIDENCE_THRESHOLD]
  · norm_num [CONFIDENCE_THRESHOLD]

/-- Concrete single-voter population for the C2 witness. -/
def votersW2 : List (String × Voter) :=
  [("v1", { id := "v1", name := "N", email := "e@x", registrationDate := "d",
            faceEncoding := [0], status := "active", createdAt := 0 })]

/-- Concrete compare-faces behaviour for the C2 witness. -/
def cfW2 : List ℚ → List ℚ → CompareOutcome := fun _ _ => .response true (7 / 10)

/-- Witness for the amended C2 at the single-voter population. -/
theorem auth_log_invariant_amended_witness :
    ∃ rec, (authenticate cfW2 (.response true [3]) votersW2 true 4 "ip" []).2 =
        [] ++ [rec] ∧
      (rec.result = "success" ↔ CONFIDENCE_THRESHOLD ≤ rec.confidence) ∧
      (rec.result = "success" → rec.voterId ≠ none) ∧
      (rec.voterId ≠ none ↔ ∃ p ∈ votersW2, p.2.status = "active" ∧
        ∃ c, cfW2 [3] p.2.faceEncoding = .response true c ∧ 0 < c) :=
  auth_log_invariant_amended cfW2 [3] votersW2 4 "ip" []
    (by intro p hp hact b; fin_cases hp; simp [cfW2])

/-- When the comparison loop completes, the authenticate handler with
a succeeding log push appends exactly one attempt record built from
the final bestMatch and bestConfidence. -/
theorem authenticate_appends_of_ok (cf : List ℚ → List ℚ → CompareOutcome)
    (probe : List ℚ) (voters : List (String × Voter)) (now : Int) (ip : String)
    (logs : List AuthLogRecord) (bm : Option (String × Voter)) (bc : ℚ)
    (called : List String)
    (hr : compareLoop cf probe voters none 0 [] = .ok (bm, bc, called)) :
    (authenticate cf (.response true probe) voters true now ip logs).2 =
      logs ++ [{ timestamp := now, voterId := bm.map (fun p => p.1),
                 voterName := bm.map (fun p => p.2.name),
                 result := if CONFIDENCE_THRESHOLD ≤ bc then "success" else "failed",
                 confidence := bc, ipAddress := ip }] := by
  simp only [authenticate, hr]
  by_cases hthr : CONFIDENCE_THRESHOLD ≤ bc
  · rcases bm with _ | ⟨vid, v⟩ <;> simp [ge_iff_le, hthr]
  · simp [ge_iff_le, hthr]

/-- C3 (amended): the authenticate call writes no attempt record
exactly when the compare-faces call throws for at least one active
voter, and in that case the response is a 503 or 500 error: a single
thrown comparison aborts the whole scan even when other comparisons
would succeed.  Only a resolved response with success false merely
skips that voter: the loop continues over the remaining voters with
the running best unchanged. -/
theorem oracle_failure_aborts_scan_amended
    (cf : List ℚ → List ℚ → CompareOutcome) (probe : List ℚ)
    (voters : List (String × Voter)) (now : Int) (ip : String)
    (logs : List AuthLogRecord) :
    ((authenticate cf (.response true probe) voters true now ip logs).2 = logs ↔
      ∃ p ∈ voters, p.2.status = "active" ∧
        ∃ b, cf probe p.2.faceEncoding = .throws b) ∧
    ((∃ p ∈ voters, p.2.status = "active" ∧
        ∃ b, cf probe p.2.faceEncoding = .throws b) →
      (authenticate cf (.response true probe) voters true now ip logs).1 =
          .serviceUnavailable ∨
        (authenticate cf (.response true probe) voters true now ip logs).1 =
          .internalError) ∧
    (∀ vid v rest bm bc acc, v.status = "active" →
      (∃ c, cf probe v.faceEncoding = .response false c) →
      compareLoop cf probe ((vid, v) :: rest) bm bc acc =
        compareLoop cf probe rest bm bc (acc ++ [vid])) := by
  refine ⟨?_, ?_, ?_⟩
  · by_cases hex : ∃ p ∈ voters, p.2.status = "active" ∧
        ∃ b, cf probe p.2.faceEncoding = .throws b
    · refine iff_of_true ?_ hex
      obtain ⟨b, hr⟩ := (compareLoop_error_iff cf probe voters none 0 []).mpr hex
      simp only [authenticate, hr]
    · refine iff_of_false ?_ hex
      push_neg at hex
      obtain ⟨r, hr⟩ := compareLoop_ok_of_no_throw cf probe voters none 0 []
        (fun p hp hact b hb => absurd hb (hex p hp hact b))
      obtain ⟨bm, bc, called⟩ := r
      rw [authenticate_appends_of_ok cf probe voters now ip logs bm bc called hr]
      intro hcontra
      have := congrArg List.length hcontra
      simp at this
  · intro hex
    obtain ⟨b, hr⟩ := (compareLoop_error_iff cf probe voters none 0 []).mpr hex
    simp only [authenticate, hr]
    cases b
    · right
      rfl
    · left
      rfl
  · intro vid v rest bm bc acc hact hresp
    obtain ⟨c, hcf⟩ := hresp
    simp only [compareLoop, if_neg (not_not_intro hact), hcf]
    simp

/-- Concrete two-voter population for C3: both active. -/
def votersW3 : List (String × Voter) :=
  [("v1", { id := "v1", name := "N1", email := "e1@x", registrationDate := "d",
            faceEncoding := [0], status := "active", createdAt := 0 }),
   ("v2", { id := "v2", name := "N2", email := "e2@x", registrationDate := "d",
            faceEncoding := [1], status := "active", createdAt := 1 })]

/-- Concrete compare-faces behaviour for C3: throws for the first
voter, resolves at 9/10 for the second. -/
def cfW3 : List ℚ → List ℚ → CompareOutcome := fun _ e =>
  if e = [0] then .throws true else .response true (9 / 10)

/-- C3 counterexample: the comparison for the first active voter
throws while the second would resolve at 9/10, above the threshold;
yet the whole authenticate call fails with 503 and writes no attempt
record, although not every comparison fails — contradicting the
claimed skip-and-continue semantics for thrown oracle calls. -/
theorem oracle_partial_failure_counterexample :
    authenticate cfW3 (.response true [5]) votersW3 true 2 "ip" [] =
      (.serviceUnavailable, []) ∧
    cfW3 [5] [1] = .response true (9 / 10) ∧
    CONFIDENCE_THRESHOLD ≤ 9 / 10 := by
  refine ⟨?_, ?_, ?_⟩
  · norm_num [authenticate, compareLoop, cfW3, votersW3]
  · norm_num [cfW3]
  · norm_num [CONFIDENCE_THRESHOLD]

/-- Witness for the amended C3 at the concrete two-voter population. -/
theorem oracle_failure_aborts_scan_amended_witness :
    (authenticate cfW3 (.response true [5]) votersW3 true 2 "ip" []).2 = [] ∧
    ((authenticate cfW3 (.response true [5]) votersW3 true 2 "ip" []).1 =
        .serviceUnavailable ∨
      (authenticate cfW3 (.response true [5]) votersW3 true 2 "ip" []).1 =
        .internalError) :=
  have hex : ∃ p ∈ votersW3, p.2.status = "active" ∧
      ∃ b, cfW3 [5] p.2.faceEncoding = .throws b :=
    ⟨_, List.mem_cons_self _ _, rfl, true, by norm_num [cfW3, votersW3]⟩
  ⟨((oracle_failure_aborts_scan_amended cfW3 [5] votersW3 2 "ip" []).1).mpr hex,
    ((oracle_failure_aborts_scan_amended cfW3 [5] votersW3 2 "ip" []).2.1) hex⟩

/-- C4 counterexample: on an empty store, a register call whose voter
write succeeds but whose registration_logs push fails returns the 500
internal error to the caller instead of the created result, even
though the new voter record was already persisted and stays stored. -/
theorem log_append_failure_counterexample :
    register (.response true [1]) "N" "e@x" "id1" "d" 3 true false [] [] =
      (.internalError,
        [("id1", { id := "id1", name := "N", email := "e@x", registrationDate := "d",
                   faceEncoding := [1], status := "active", createdAt := 3 })], []) := by
  rfl

/-- C4 (amended): a failure of the audit-log append fails the caller
with a 500 internal error rather than the primary result; the store
write that already succeeded is not rolled back.  For register, the
created voter remains in the store while the caller sees the error
and the registration log is unchanged; for authenticate, the caller
sees the error and no attempt record is appended. -/
theorem log_append_failure_fails_caller_amended
    (extractEncoding : List ℚ) (name email newVoterId registrationDate : String)
    (now : Int) (voters : List (String × Voter))
    (registration_logs : List RegistrationLogRecord)
    (hfree : ∀ p ∈ voters, p.2.email ≠ email) :
    register (.response true extractEncoding) name email newVoterId registrationDate now
        true false voters registration_logs =
      (.internalError,
        voters ++ [(newVoterId,
          { id := newVoterId, name := name, email := email,
            registrationDate := registrationDate, faceEncoding := extractEncoding,
            status := "active", createdAt := now })],
        registration_logs) ∧
    (∀ cf probe now2 ip logs,
      (∀ p ∈ voters, p.2.status = "active" →
        ∀ b, cf probe p.2.faceEncoding ≠ CompareOutcome.throws b) →
      (authenticate cf (.response true probe) voters false now2 ip logs).1 =
          .internalError ∧
        (authenticate cf (.response true probe) voters false now2 ip logs).2 = logs) := by
  have hany : voters.any (fun p => p.2.email = email) = false := by
    rw [List.any_eq_false]
    intro p hp
    simpa using hfree p hp
  constructor
  · rw [register.eq_def]
    simp [hany]
  · intro cf probe now2 ip logs hnothrow
    obtain ⟨r, hr⟩ := compareLoop_ok_of_no_throw cf probe voters none 0 [] hnothrow
    obtain ⟨bm, bc, called⟩ := r
    simp only [authenticate, hr]
    simp

/-- Witness for the amended C4 at an empty store. -/
theorem log_append_failure_fails_caller_amended_witness :
    register (.response true [1]) "N" "e2@x" "id9" "d" 3 true false [] [] =
      (.internalError,
        [] ++ [("id9", { id := "id9", name := "N", email := "e2@x",
                         registrationDate := "d", faceEncoding := [1],
                         status := "active", createdAt := 3 })], []) ∧
    ((authenticate (fun _ _ => .response true 0) (.response true [3]) [] false 4 "ip"
        []).1 = .internalError ∧
      (authenticate (fun _ _ => .response true 0) (.response true [3]) [] false 4 "ip"
        []).2 = []) :=
  ⟨(log_append_failure_fails_caller_amended [1] "N" "e2@x" "id9" "d" 3 [] []
      (by simp)).1,
    (log_append_failure_fails_caller_amended [1] "N" "e2@x" "id9" "d" 3 [] []
      (by simp)).2 (fun _ _ => .response true 0) [3] 4 "ip" [] (by simp)⟩

/-- A success record timestamped 1 for the C7 counterexample. -/
def recIn : AuthLogRecord :=
  { timestamp := 1, voterId := some "v", voterName := some "N",
    result := "success", confidence := 1, ipAddress := "ip" }

/-- A success record timestamped exactly at the start of day for the
C7 counterexample. -/
def recBoundary : AuthLogRecord :=
  { timestamp := 0, voterId := some "v", voterName := some "N",
    result := "success", confidence := 1, ipAddress := "ip" }

/-- C7 counterexample: with 101 success records from today, the stats
computation reports 100 (the oldest record falls outside its
limitToLast-100 window) although all 101 records satisfy the claimed
predicate; and a success record timestamped exactly at the start of
day is not counted at all (the code compares with a strict greater
than), although the claim counts timestamps greater than or equal to
the day start. -/
theorem successesToday_counterexample :
    successfulAuthsToday (List.replicate 101 recIn) 0 = 100 ∧
    (List.replicate 101 recIn).countP
      (fun log => decide (0 ≤ log.timestamp ∧ log.result = "success")) = 101 ∧
    successfulAuthsToday [recBoundary] 0 = 0 ∧
    ([recBoundary].countP
      (fun log => decide (0 ≤ log.timestamp ∧ log.result = "success"))) = 1 := by
  refine ⟨rfl, rfl, rfl, rfl⟩

/-- C7 (amended): successesToday counts the success records with
timestamp strictly greater than the start of the current day among
only the most recent 100 attempt records; hence it never exceeds 100,
and it agrees with the count over all records (with the strict
comparison) exactly when at most 100 records exist. -/
theorem successesToday_amended (authentication_logs : List AuthLogRecord)
    (todayTimestamp : Int) :
    successfulAuthsToday authentication_logs todayTimestamp ≤ 100 ∧
    (authentication_logs.length ≤ 100 →
      successfulAuthsToday authentication_logs todayTimestamp =
        authentication_logs.countP
          (fun log => decide (todayTimestamp < log.timestamp ∧
            log.result = "success"))) := by
  constructor
  · calc successfulAuthsToday authentication_logs todayTimestamp
        ≤ (limitToLast 100 authentication_logs).length :=
          List.length_filter_le _ _
      _ ≤ 100 := by
          rw [limitToLast, List.length_drop]
          omega
  · intro hlen
    rw [successfulAuthsToday, limitToLast]
    have h0 : authentication_logs.length - 100 = 0 := by omega
    rw [h0, List.drop_zero, List.countP_eq_length_filter]

/-- Witness for the amended C7 at a two-record log. -/
theorem successesToday_amended_witness :
    successfulAuthsToday [recIn, recBoundary] 0 ≤ 100 ∧
    successfulAuthsToday [recIn, recBoundary] 0 =
      ([recIn, recBoundary].countP
        (fun log => decide (0 < log.timestamp ∧ log.result = "success"))) :=
  ⟨(successesToday_amended [recIn, recBoundary] 0).1,
    (successesToday_amended [recIn, recBoundary] 0).2 (by decide)⟩

/-- C9: revoking a template removes it from the active snapshot and
from the scoring of later identify calls — the comparison loop over
the post-revoke store never invokes the oracle for the revoked id —
while the previously written authentication records (and registration
records) are left unchanged. -/
theorem revoke_removes_from_snapshots
    (db : Database) (targetId : String) (db2 : Database)
    (hrev : revoke db targetId = .ok db2) :
    (∀ p ∈ db2.voters, p.1 = targetId → p.2.status ≠ "active") ∧
    (∀ p ∈ activeVoters db2.voters, p.1 ≠ targetId) ∧
    (∀ cf probe bm bc r, compareLoop cf probe db2.voters bm bc [] = .ok r →
      targetId ∉ r.2.2) ∧
    db2.authentication_logs = db.authentication_logs ∧
    db2.registration_logs = db.registration_logs := by
  rw [revoke] at hrev
  by_cases hfound : db.voters.any (fun p => p.1 = targetId)
  · rw [if_pos hfound] at hrev
    injection hrev with hdb
    subst hdb
    have hstatus : ∀ p ∈ (db.voters.map (fun p =>
        if p.1 = targetId then (p.1, { p.2 with status := "revoked" }) else p)),
        p.1 = targetId → p.2.status ≠ "active" := by
      intro p hp htid
      obtain ⟨q, hq, hqe⟩ := List.mem_map.mp hp
      by_cases hq1 : q.1 = targetId
      · rw [if_pos hq1] at hqe
        rw [← hqe]
        simp
      · rw [if_neg hq1] at hqe
        rw [← hqe] at htid
        exact absurd htid hq1
    refine ⟨hstatus, ?_, ?_, rfl, rfl⟩
    · intro p hp htid
      have hm := List.mem_filter.mp hp
      exact absurd (by simpa using hm.2) (hstatus p hm.1 htid)
    · intro cf probe bm bc r hok htid
      rcases compareLoop_called_subset cf probe _ bm bc [] r hok targetId htid with
        hacc | ⟨v, hv, hvact⟩
      · cases hacc
      · exact absurd hvact (hstatus (targetId, v) hv rfl)
  · rw [if_neg hfound] at hrev
    cases hrev

/-- One-voter database for the C9 witness. -/
def dbW9 : Database :=
  { voters := [("v1", { id := "v1", name := "N", email := "e@x",
                        registrationDate := "d", faceEncoding := [0],
                        status := "active", createdAt := 0 })],
    authentication_logs := [recIn],
    registration_logs := [{ voterId := "v1", voterName := "N", timestamp := 0,
                            action := "registered" }] }

/-- The database the C9 witness expects after revoking v1. -/
def dbW9after : Database :=
  { voters := [("v1", { id := "v1", name := "N", email := "e@x",
                        registrationDate := "d", faceEncoding := [0],
                        status := "revoked", createdAt := 0 })],
    authentication_logs := [recIn],
    registration_logs := [{ voterId := "v1", voterName := "N", timestamp := 0,
                            action := "registered" }] }

/-- Witness for C9: revoking the only voter of a one-voter database. -/
theorem revoke_removes_from_snapshots_witness :
    (∀ p ∈ dbW9after.voters, p.1 = "v1" → p.2.status ≠ "active") ∧
    (∀ p ∈ activeVoters dbW9after.voters, p.1 ≠ "v1") ∧
    (∀ cf probe bm bc r, compareLoop cf probe dbW9after.voters bm bc [] = .ok r →
      "v1" ∉ r.2.2) ∧
    dbW9after.authentication_logs = dbW9.authentication_logs ∧
    dbW9after.registration_logs = dbW9.registration_logs :=
  revoke_removes_from_snapshots dbW9 "v1" dbW9after rfl

/-- First register call of the C10 race. -/
def callA : RegCall :=
  { name := "A", email := "dup@x", newVoterId := "idA",
    registrationDate := "d", faceEncoding := [0], now := 0 }

/-- Second register call of the C10 race, same contact key. -/
def callB : RegCall :=
  { name := "B", email := "dup@x", newVoterId := "idB",
    registrationDate := "d", faceEncoding := [1], now := 1 }

/-- C10 counterexample: under the interleaving where both duplicate
checks run before either write (both checks observe the empty store),
both register calls with the same email reach the created state and
the store ends up with two voters sharing the contact key —
contradicting the claim that exactly one concurrent call succeeds. -/
theorem concurrent_register_duplicate_counterexample :
    runSchedule callA callB [false, true, false, true] (.toCheck, .toCheck, []) =
      (.doneCreated, .doneCreated,
        [("idA", callA.voterData), ("idB", callB.voterData)]) ∧
    callA.voterData.email = callB.voterData.email ∧
    (([("idA", callA.voterData), ("idB", callB.voterData)].filter
        (fun p => p.2.email = "dup@x")).length = 2) := by
  refine ⟨rfl, rfl, rfl⟩

/-- C10 (amended): the duplicate check and the voter write are
separate awaited steps with no atomic conditional insert, so
interleaved register calls with the same contact key can all succeed
and leave duplicate templates; exactly-one-succeeds holds only under
serialization: when one call runs to completion before the other
starts, the first ends created and the second ends with the
conflict, leaving a single new template in the store. -/
theorem concurrent_register_serialized_amended
    (a b : RegCall) (store : List (String × Voter))
    (hsame : a.email = b.email)
    (hfree : ∀ p ∈ store, p.2.email ≠ a.email) :
    runSchedule a b [false, false, true, true] (.toCheck, .toCheck, store) =
      (.doneCreated, .doneConflict, store ++ [(a.newVoterId, a.voterData)]) := by
  have hany1 : store.any (fun p => p.2.email = a.email) = false := by
    rw [List.any_eq_false]
    intro p hp
    simpa using hfree p hp
  have hany2 : (store ++ [(a.newVoterId, a.voterData)]).any
      (fun p => p.2.email = b.email) = true := by
    rw [List.any_eq_true]
    refine ⟨(a.newVoterId, a.voterData),
      List.mem_append_right _ (List.mem_cons_self _ _), ?_⟩
    simp [RegCall.voterData, hsame]
  simp only [runSchedule, regStep, hany1, hany2]
  simp [hany2]

/-- Witness for the amended C10 at the concrete pair of calls on the
empty store. -/
theorem concurrent_register_serialized_amended_witness :
    runSchedule callA callB [false, false, true, true] (.toCheck, .toCheck, []) =
      (.doneCreated, .doneConflict, [] ++ [(callA.newVoterId, callA.voterData)]) :=
  concurrent_register_serialized_amended callA callB [] rfl (by simp)
